import Mathlib

/-!
Verification of the lwjgl3ify Prism-instance installer
(`lwjgl3ify_installer.py`) against its natural-language specification.

The definitions below are a shallow embedding of the Python source.
Network I/O is made explicit: the result of a GitHub release query is a
value of type `Except QueryError _` supplied as an argument, and the
pure logic that the Python code applies to the response is translated
function by function.  Machine-level concerns (Qt signals, threads) are
modelled by the order in which the chained completion callbacks fire,
which the source serializes strictly.
-/

/-- A release asset as delivered by the GitHub API: `asset['name']` and
`asset['browser_download_url']`. -/
structure Asset where
  name : String
  browser_download_url : String
deriving DecidableEq

/-- A primary match rule: required leading string, required trailing
string, and the exact number of `-` characters the asset name must
contain.  The Python source writes these three conditions inline in
`get_unimixins_latest_release`, `get_hodgepodge_latest_release` and
`get_gtnhlib_latest_release`. -/
structure MatchRule where
  requiredStart : String
  requiredEnd : String
  requiredDashCount : Nat
deriving DecidableEq

/-- Python `name.startswith(pre)`: character-list prefix test. -/
def strStartsWith (s p : String) : Bool :=
  p.toList.isPrefixOf s.toList

/-- Python `name.endswith(suf)`: character-list suffix test. -/
def strEndsWith (s suf : String) : Bool :=
  suf.toList.isSuffixOf s.toList

/-- Python `sub in s`: substring containment, via the tails of `s`. -/
def containsSub (s sub : String) : Bool :=
  s.toList.tails.any (fun t => sub.toList.isPrefixOf t)

/-- Python `s.lower()` restricted to ASCII letters (the only characters
that occur in the marker strings it is applied to). -/
def strToLower (s : String) : String :=
  ⟨s.toList.map Char.toLower⟩

/-- Python `name.count('-')`: number of `-` characters in the name. -/
def countDashes (name : String) : Nat :=
  name.toList.count '-'

/-- The conjunction tested inside the primary matching loops:
`name.startswith(...) and name.endswith(...) and name.count('-') == k`. -/
def matchesRule (rule : MatchRule) (name : String) : Bool :=
  strStartsWith name rule.requiredStart &&
    strEndsWith name rule.requiredEnd &&
    (countDashes name == rule.requiredDashCount)

/-- The primary asset-matching loop: `for asset in assets: if cond:
return asset`, i.e. the first asset in listing order whose name
satisfies the rule. -/
def matchAsset (assets : List Asset) (rule : MatchRule) : Option Asset :=
  assets.find? (fun a => matchesRule rule a.name)

/-- Two chained matching loops, as in `get_unimixins_latest_release`:
the first loop scans with predicate `p` and returns on a hit; the
second (fallback) loop with predicate `q` is reached only when the
first loop falls through. -/
def matchWithFallback (assets : List Asset) (p q : Asset → Bool) : Option Asset :=
  match assets.find? p with
  | some a => some a
  | none => assets.find? q

/-- Turning a matched asset into the `(download_url, filename)` pair
returned by the `get_*_latest_release` helpers (`(None, None)` when no
asset matched). -/
def assetResult (o : Option Asset) : Option String × Option String :=
  match o with
  | some a => (some a.browser_download_url, some a.name)
  | none => (none, none)

/-- The inline rule of `get_unimixins_latest_release`:
`+unimixins-all-{version}.jar` with exactly 2 dashes. -/
def unimixinsRule : MatchRule :=
  ⟨"+unimixins-all-", ".jar", 2⟩

/-- The fallback predicate of `get_unimixins_latest_release`:
`'unimixins-all-' in name and name.endswith('.jar') and not any(suffix
in name.lower() for suffix in ['-dev','-api','-sources','-javadoc'])`. -/
def unimixinsFallbackPred (name : String) : Bool :=
  containsSub name "unimixins-all-" && strEndsWith name ".jar" &&
    !(["-dev", "-api", "-sources", "-javadoc"].any
        (fun m => containsSub (strToLower name) m))

/-- The inline rule of `get_hodgepodge_latest_release`:
`hodgepodge-{version}.jar` with exactly 1 dash. -/
def hodgepodgeRule : MatchRule :=
  ⟨"hodgepodge-", ".jar", 1⟩

/-- The inline rule of `get_gtnhlib_latest_release`:
`gtnhlib-{version}.jar` with exactly 1 dash. -/
def gtnhlibRule : MatchRule :=
  ⟨"gtnhlib-", ".jar", 1⟩

/-- Ways a `requests.get` + `response.json()` call can fail; the Python
source catches them all with one `except Exception`. -/
inductive QueryError
  | networkFailure
  | parseFailure
deriving DecidableEq

/-- The fields of the release-query response that the source reads:
`release_data['tag_name']` and `release_data.get('assets', [])`. -/
structure ReleaseData where
  tag_name : String
  assets : List Asset
deriving DecidableEq

/-- The URL template of `get_latest_release_url`:
`f"https://github.com/GTNewHorizons/lwjgl3ify/releases/download/{tag_name}/lwjgl3ify-{tag_name}-multimc.zip"`. -/
def lwjgl3ifyUrlForTag (tag : String) : String :=
  "https://github.com/GTNewHorizons/lwjgl3ify/releases/download/" ++ tag ++
    "/lwjgl3ify-" ++ tag ++ "-multimc.zip"

/-- `get_latest_release_url`: on a successful query the download URL is
built from the tag by string formatting (the asset list is never
consulted); on any exception the static fallback URL and version
`2.1.14` are returned. -/
def get_latest_release_url (r : Except QueryError ReleaseData) :
    Option String × Option String :=
  match r with
  | .ok d => (some (lwjgl3ifyUrlForTag d.tag_name), some d.tag_name)
  | .error _ =>
      (some "https://github.com/GTNewHorizons/lwjgl3ify/releases/download/2.1.14/lwjgl3ify-2.1.14-multimc.zip",
        some "2.1.14")

/-- `get_jar_download_url`: the mod-jar URL is also a pure format of the
version string. -/
def get_jar_download_url (version : String) : String :=
  "https://github.com/GTNewHorizons/lwjgl3ify/releases/download/" ++ version ++
    "/lwjgl3ify-" ++ version ++ ".jar"

/-- `get_unimixins_latest_release`: on failure `(None, None)`; otherwise
the primary matching loop, then the fallback loop. -/
def get_unimixins_latest_release (r : Except QueryError (List Asset)) :
    Option String × Option String :=
  match r with
  | .ok assets =>
      assetResult (matchWithFallback assets
        (fun a => matchesRule unimixinsRule a.name)
        (fun a => unimixinsFallbackPred a.name))
  | .error _ => (none, none)

/-- `get_hodgepodge_latest_release`: a single primary matching loop, no
fallback. -/
def get_hodgepodge_latest_release (r : Except QueryError (List Asset)) :
    Option String × Option String :=
  match r with
  | .ok assets => assetResult (matchAsset assets hodgepodgeRule)
  | .error _ => (none, none)

/-- `get_gtnhlib_latest_release`: a single primary matching loop, no
fallback. -/
def get_gtnhlib_latest_release (r : Except QueryError (List Asset)) :
    Option String × Option String :=
  match r with
  | .ok assets => assetResult (matchAsset assets gtnhlibRule)
  | .error _ => (none, none)

/-- One entry of `self.download_queue`: the `(url, path, label)` triple
appended by `download_jar_file`. -/
structure DownloadTask where
  url : String
  destinationPath : String
  label : String
deriving DecidableEq

/-- Placeholder for out-of-range `getD` reads; never reached because
every access is guarded by `current_download_index < len(queue)`. -/
def defaultTask : DownloadTask :=
  ⟨"", "", ""⟩

/-- `download_jar_file` builds the queue in a fixed order: the lwjgl3ify
jar always, then UniMixins, Hodgepodge and GTNHLib, each appended only
when its release resolver returned a URL and filename. -/
def buildQueue (version modsFolder : String)
    (uni hodge gtnh : Option (String × String)) : List DownloadTask :=
  [⟨get_jar_download_url version,
      modsFolder ++ "/lwjgl3ify-" ++ version ++ ".jar", "lwjgl3ify"⟩]
    ++ (match uni with
        | some (u, f) => [⟨u, modsFolder ++ "/" ++ f, "UniMixins"⟩]
        | none => [])
    ++ (match hodge with
        | some (u, f) => [⟨u, modsFolder ++ "/" ++ f, "Hodgepodge"⟩]
        | none => [])
    ++ (match gtnh with
        | some (u, f) => [⟨u, modsFolder ++ "/" ++ f, "GTNHLib"⟩]
        | none => [])

/-- The labels that can ever appear in a download queue, in queue
order. -/
def modLabels : List String :=
  ["lwjgl3ify", "UniMixins", "Hodgepodge", "GTNHLib"]

/-- The pipeline state mutated by the secondary-download callbacks:
`self.current_download_index` and `self.failed_downloads`. -/
structure SecState where
  currentIndex : Nat
  failedLabels : List String
deriving DecidableEq

/-- `download_jar_file` initializes `current_download_index = 0` and
`failed_downloads = []` before the first `download_next_mod()` call. -/
def initSecState : SecState :=
  ⟨0, []⟩

/-- One round of the callback chain: `download_next_mod` checks
`current_download_index >= len(queue)` (no-op on the state when the
phase is over); otherwise the item at the current index is downloaded
and either `on_mod_download_finished` (index + 1) or
`on_mod_download_error` (record label, index + 1) fires.  `ok i = true`
means item `i`'s download succeeds. -/
def secStep (queue : List DownloadTask) (ok : Nat → Bool) (s : SecState) : SecState :=
  if s.currentIndex < queue.length then
    ⟨s.currentIndex + 1,
      if ok s.currentIndex then s.failedLabels
      else s.failedLabels ++ [(queue.getD s.currentIndex defaultTask).label]⟩
  else s

/-- The pipeline state after `k` rounds of the callback chain, starting
from the reset state. -/
def secTrace (queue : List DownloadTask) (ok : Nat → Bool) (k : Nat) : SecState :=
  (secStep queue ok)^[k] initSecState

/-- The failure labels accumulated after the first `m` items: the labels
of the failed indices below `m`, in index order. -/
def failedByIndex (queue : List DownloadTask) (ok : Nat → Bool) (m : Nat) : List String :=
  ((List.range m).filter (fun i => !ok i)).map
    (fun i => (queue.getD i defaultTask).label)

/-- Structural form of the accumulated failure labels: walk the queue,
keeping the label of each item whose download fails. -/
def failedSel : List DownloadTask → (Nat → Bool) → List String
  | [], _ => []
  | t :: rest, ok =>
      (if ok 0 then [] else [t.label]) ++ failedSel rest (fun i => ok (i + 1))

/-- The contents of `self.failed_downloads` when the secondary phase
completes (after all `len(queue)` items were processed). -/
def finalFailedLabels (queue : List DownloadTask) (ok : Nat → Bool) : List String :=
  (secTrace queue ok queue.length).failedLabels

/-- The consolidated result reported at the end of the run.  `failure`
is the outcome of the primary error handlers (`on_download_error`,
`on_extract_error`); the secondary aggregator below never produces
it. -/
inductive Outcome
  | fullSuccess
  | partialSuccess (failedLabels : List String)
  | failure (message : String)
deriving DecidableEq

/-- `on_all_mods_downloaded`: an empty `failed_downloads` list reports
full success; a non-empty one reports partial success carrying the
failed labels (the dialog also states that the main lwjgl3ify
installation succeeded, and `installation_complete()` runs in both
branches). -/
def on_all_mods_downloaded (failed : List String) : Outcome :=
  if failed.isEmpty then .fullSuccess else .partialSuccess failed

/-- `on_download_error`, the primary-download error handler: a fatal
outcome that aborts the remaining phases. -/
def on_download_error (message : String) : Outcome :=
  .failure message

/-- `on_mod_download_progress`: the overall secondary progress computed
from the current index, the queue length and the per-item fraction
`progress / 100.0` (the value subsequently truncated for the progress
bar). -/
def on_mod_download_progress (currentIndex totalMods : Nat) (itemFraction : ℚ) : ℚ :=
  ((currentIndex : ℚ) + itemFraction) / (totalMods : ℚ) * 100

/-- The cumulative byte counts observed by `DownloadThread.run` after
each non-empty chunk (`downloaded += len(chunk)`), starting from
`acc`. -/
def cumBytes (acc : Nat) : List Nat → List Nat
  | [] => []
  | c :: rest =>
      if c ≠ 0 then (acc + c) :: cumBytes (acc + c) rest
      else cumBytes acc rest

/-- The body of the `DownloadThread.run` streaming loop: for each
non-empty chunk the byte count advances, and when `total_size > 0` the
value `int(downloaded / total_size * 100)` is emitted. -/
def downloadThreadRunAux (total acc : Nat) : List Nat → List Nat
  | [] => []
  | c :: rest =>
      if c ≠ 0 then
        if 0 < total then
          ((acc + c) * 100 / total) :: downloadThreadRunAux total (acc + c) rest
        else downloadThreadRunAux total (acc + c) rest
      else downloadThreadRunAux total acc rest

/-- The sequence of progress percentages emitted by
`DownloadThread.run` given the `content-length` header value and the
lengths of the received chunks. -/
def downloadThreadRun (total : Nat) (chunks : List Nat) : List Nat :=
  downloadThreadRunAux total 0 chunks

/-- The parts of an instance directory that `find_mods_folder` inspects:
existence of `minecraft`, `minecraft/mods`, `.minecraft`,
`.minecraft/mods`, and the immediate subdirectories (with whether each
contains a `mods` entry), in listing order. -/
structure InstanceFS where
  minecraftExists : Bool
  minecraftModsExists : Bool
  dotMinecraftExists : Bool
  dotMinecraftModsExists : Bool
  subdirs : List (String × Bool)
deriving DecidableEq

/-- `find_mods_folder`: for `minecraft` then `.minecraft`, return the
existing `mods` child, else create it when the parent directory exists;
otherwise return the `mods` child of the first immediate subdirectory
that has one; otherwise `None`.  The result is the returned path
(components relative to the instance root) together with whether the
call created it via `mkdir`. -/
def find_mods_folder (fs : InstanceFS) : Option (List String × Bool) :=
  if fs.minecraftModsExists then some (["minecraft", "mods"], false)
  else if fs.minecraftExists then some (["minecraft", "mods"], true)
  else if fs.dotMinecraftModsExists then some ([".minecraft", "mods"], false)
  else if fs.dotMinecraftExists then some ([".minecraft", "mods"], true)
  else
    match fs.subdirs.find? (fun d => d.2) with
    | some d => some ([d.1, "mods"], false)
    | none => none

/-! ## Helper lemmas about the matching loop -/

/-- A `for`/`return` scan that yields `a` did so because `a` satisfies
the predicate and is the first list element that does. -/
theorem find?_eq_some_first {α : Type} (p : α → Bool) :
    ∀ (l : List α) (a : α), l.find? p = some a →
      p a = true ∧ ∃ l1 l2, l = l1 ++ a :: l2 ∧ ∀ b ∈ l1, p b = false := by
  intro l
  induction l with
  | nil => intro a h; simp [List.find?] at h
  | cons x rest ih =>
    intro a h
    cases hx : p x with
    | true =>
      rw [List.find?_cons_of_pos _ hx] at h
      obtain rfl : x = a := by simpa using h
      exact ⟨hx, [], rest, rfl, by simp⟩
    | false =>
      rw [List.find?_cons_of_neg _ (by simp [hx])] at h
      obtain ⟨hp, l1, l2, rfl, hall⟩ := ih a h
      refine ⟨hp, x :: l1, l2, rfl, ?_⟩
      intro b hb
      rcases List.mem_cons.mp hb with rfl | hb
      · exact hx
      · exact hall b hb

/-- Conversely, a scan over a list split as `l1 ++ a :: l2`, where
nothing in `l1` qualifies and `a` does, returns `a`. -/
theorem find?_eq_some_of_split {α : Type} (p : α → Bool) :
    ∀ (l1 : List α) (a : α) (l2 : List α),
      (∀ b ∈ l1, p b = false) → p a = true →
      (l1 ++ a :: l2).find? p = some a := by
  intro l1
  induction l1 with
  | nil => intro a l2 _ ha; simpa using List.find?_cons_of_pos _ ha
  | cons x rest ih =>
    intro a l2 hall ha
    have hx : p x = false := hall x (by simp)
    rw [List.cons_append, List.find?_cons_of_neg _ (by simp [hx])]
    exact ih a l2 (fun b hb => hall b (List.mem_cons_of_mem _ hb)) ha

/-! ## C1: soundness and first-match behaviour of the primary matcher -/

/-- Claim C1: for every asset list and every primary match rule, the
asset matcher returns an asset only if its name starts with the
required leading string, ends with the required trailing string, and
contains exactly the required number of `-` characters; being a pure
function of its inputs it is deterministic, and the returned asset is
the first qualifying one in listing order (nothing before it in the
list satisfies the rule). -/
theorem matchAsset_sound_and_first (assets : List Asset) (rule : MatchRule)
    (a : Asset) (h : matchAsset assets rule = some a) :
    strStartsWith a.name rule.requiredStart = true
    ∧ strEndsWith a.name rule.requiredEnd = true
    ∧ countDashes a.name = rule.requiredDashCount
    ∧ ∃ l1 l2, assets = l1 ++ a :: l2 ∧
        ∀ b ∈ l1, matchesRule rule b.name = false := by
  have h' : assets.find? (fun x => matchesRule rule x.name) = some a := h
  obtain ⟨hp, l1, l2, hsplit, hall⟩ :=
    find?_eq_some_first (fun x => matchesRule rule x.name) assets a h'
  have hp' := hp
  simp only [matchesRule, Bool.and_eq_true, beq_iff_eq] at hp'
  exact ⟨hp'.1.1, hp'.1.2, hp'.2, l1, l2, hsplit, hall⟩

/-- Witness for C1, the spec's Scenario A: with assets
`["foo-1.0.jar", "+unimixins-all-2.3.jar", "+unimixins-all-api-2.3.jar"]`
and the UniMixins rule, the matcher picks `+unimixins-all-2.3.jar`
(2 dashes), whose name indeed satisfies all three conditions. -/
theorem matchAsset_sound_and_first_witness :
    matchAsset
        [⟨"foo-1.0.jar", "u1"⟩, ⟨"+unimixins-all-2.3.jar", "u2"⟩,
          ⟨"+unimixins-all-api-2.3.jar", "u3"⟩] unimixinsRule
      = some ⟨"+unimixins-all-2.3.jar", "u2"⟩
    ∧ strStartsWith "+unimixins-all-2.3.jar" "+unimixins-all-" = true
    ∧ strEndsWith "+unimixins-all-2.3.jar" ".jar" = true
    ∧ countDashes "+unimixins-all-2.3.jar" = 2 := by
  have h : matchAsset
      [⟨"foo-1.0.jar", "u1"⟩, ⟨"+unimixins-all-2.3.jar", "u2"⟩,
        ⟨"+unimixins-all-api-2.3.jar", "u3"⟩] unimixinsRule
      = some ⟨"+unimixins-all-2.3.jar", "u2"⟩ := by decide
  have hc := matchAsset_sound_and_first
    [⟨"foo-1.0.jar", "u1"⟩, ⟨"+unimixins-all-2.3.jar", "u2"⟩,
      ⟨"+unimixins-all-api-2.3.jar", "u3"⟩] unimixinsRule
    ⟨"+unimixins-all-2.3.jar", "u2"⟩ h
  exact ⟨h, hc.1, hc.2.1, hc.2.2.1⟩

/-! ## C3: the fallback rule is dead when the primary rule hits -/

/-- Claim C3: whenever the primary scan finds an asset, the two-rule
matcher returns exactly that asset and its result does not depend on
the fallback predicate at all (the fallback scan is never performed);
`get_unimixins_latest_release` is literally this matcher applied to the
UniMixins primary rule and fallback predicate. -/
theorem matchWithFallback_primary_wins (assets : List Asset)
    (p q q2 : Asset → Bool) (a : Asset) (h : assets.find? p = some a) :
    matchWithFallback assets p q = some a
    ∧ matchWithFallback assets p q = matchWithFallback assets p q2
    ∧ ∀ as2 : List Asset,
        get_unimixins_latest_release (Except.ok as2)
          = assetResult (matchWithFallback as2
              (fun x => matchesRule unimixinsRule x.name)
              (fun x => unimixinsFallbackPred x.name)) := by
  refine ⟨?_, ?_, fun _ => rfl⟩ <;> simp [matchWithFallback, h]

/-- Witness for C3: a one-asset list whose asset satisfies the primary
predicate; the matcher returns it both with an always-true and an
always-false fallback predicate. -/
theorem matchWithFallback_primary_wins_witness :
    matchWithFallback [⟨"x.jar", "u"⟩] (fun a => a.name == "x.jar")
        (fun _ => true) = some ⟨"x.jar", "u"⟩
    ∧ matchWithFallback [⟨"x.jar", "u"⟩] (fun a => a.name == "x.jar")
        (fun _ => true)
      = matchWithFallback [⟨"x.jar", "u"⟩] (fun a => a.name == "x.jar")
        (fun _ => false) := by
  have h : ([⟨"x.jar", "u"⟩] : List Asset).find? (fun a => a.name == "x.jar")
      = some ⟨"x.jar", "u"⟩ := by decide
  have hc := matchWithFallback_primary_wins [⟨"x.jar", "u"⟩]
    (fun a => a.name == "x.jar") (fun _ => true) (fun _ => false)
    ⟨"x.jar", "u"⟩ h
  exact ⟨hc.1, hc.2.1⟩

/-! ## C5: the primary resolver is total -/

/-- Claim C5: resolving the primary release never aborts the pipeline:
whatever the query outcome (success, network failure or parse failure),
`get_latest_release_url` returns a present download URL and a present
version, and on any failure it returns the static fallback URL and
version `2.1.14`. -/
theorem get_latest_release_url_total (r : Except QueryError ReleaseData) :
    (get_latest_release_url r).1.isSome = true
    ∧ (get_latest_release_url r).2.isSome = true
    ∧ ∀ e : QueryError, r = Except.error e →
        get_latest_release_url r =
          (some "https://github.com/GTNewHorizons/lwjgl3ify/releases/download/2.1.14/lwjgl3ify-2.1.14-multimc.zip",
            some "2.1.14") := by
  cases r <;> simp [get_latest_release_url]

/-- Witness for C5 at a concrete failed query: a network failure yields
the static fallback URL and version. -/
theorem get_latest_release_url_total_witness :
    get_latest_release_url (Except.error QueryError.networkFailure) =
      (some "https://github.com/GTNewHorizons/lwjgl3ify/releases/download/2.1.14/lwjgl3ify-2.1.14-multimc.zip",
        some "2.1.14") :=
  (get_latest_release_url_total (Except.error QueryError.networkFailure)).2.2
    QueryError.networkFailure rfl

/-! ## C10: the primary URL is a pure format of the tag -/

/-- Claim C10: the primary download URL is never chosen by asset
matching: on a successful query the resolver formats the release tag
into the fixed URL template, giving the same result for every asset
list, and `get_jar_download_url` likewise formats the version; only the
three secondary dependency resolvers go through the
prefix/suffix/dash-count asset matcher. -/
theorem get_latest_release_url_ignores_assets (tag : String)
    (assets assets2 : List Asset) :
    get_latest_release_url (Except.ok ⟨tag, assets⟩)
      = (some ("https://github.com/GTNewHorizons/lwjgl3ify/releases/download/"
          ++ tag ++ "/lwjgl3ify-" ++ tag ++ "-multimc.zip"), some tag)
    ∧ get_latest_release_url (Except.ok ⟨tag, assets⟩)
      = get_latest_release_url (Except.ok ⟨tag, assets2⟩)
    ∧ get_jar_download_url tag
      = "https://github.com/GTNewHorizons/lwjgl3ify/releases/download/"
          ++ tag ++ "/lwjgl3ify-" ++ tag ++ ".jar"
    ∧ get_unimixins_latest_release (Except.ok assets)
      = assetResult (matchWithFallback assets
          (fun a => matchesRule unimixinsRule a.name)
          (fun a => unimixinsFallbackPred a.name))
    ∧ get_hodgepodge_latest_release (Except.ok assets)
      = assetResult (matchAsset assets hodgepodgeRule)
    ∧ get_gtnhlib_latest_release (Except.ok assets)
      = assetResult (matchAsset assets gtnhlibRule) :=
  ⟨rfl, rfl, rfl, rfl, rfl, rfl⟩

/-! ## Helper lemmas about the secondary-download state machine -/

/-- Closed form of the pipeline trace: after `k` callback rounds the
index is `min k (len queue)` and the failure list collects the labels
of the failed indices processed so far, in order. -/
theorem secTrace_closed (queue : List DownloadTask) (ok : Nat → Bool) (k : Nat) :
    secTrace queue ok k =
      ⟨min k queue.length, failedByIndex queue ok (min k queue.length)⟩ := by
  induction k with
  | zero => simp [secTrace, initSecState, failedByIndex]
  | succ k ih =>
    have hstep : secTrace queue ok (k + 1) = secStep queue ok (secTrace queue ok k) := by
      simp [secTrace, Function.iterate_succ_apply']
    rw [hstep, ih]
    by_cases h : k < queue.length
    · have hmk : min k queue.length = k := Nat.min_eq_left (Nat.le_of_lt h)
      have hmk1 : min (k + 1) queue.length = k + 1 := Nat.min_eq_left h
      rw [hmk, hmk1]
      cases hok : ok k with
      | true => simp [secStep, h, hok, failedByIndex, List.range_succ]
      | false => simp [secStep, h, hok, failedByIndex, List.range_succ]
    · have hk : queue.length ≤ k := Nat.le_of_not_lt h
      have hmk : min k queue.length = queue.length := Nat.min_eq_right hk
      have hmk1 : min (k + 1) queue.length = queue.length :=
        Nat.min_eq_right (Nat.le_succ_of_le hk)
      rw [hmk, hmk1]
      simp [secStep]

/-! ## C2: monotone index and single completion report -/

/-- Claim C2: during the secondary phase the queue index starts at 0,
increases by exactly 1 each time an item completes or fails, never
exceeds the queue length, and once it reaches the queue length the
state is final (no further mutation); among the `len(queue) + 1`
entries into `download_next_mod`, exactly one sees an exhausted queue
and so reports the recorded failures exactly once. -/
theorem secondary_index_invariant (queue : List DownloadTask)
    (ok : Nat → Bool) (k : Nat) :
    (secTrace queue ok 0).currentIndex = 0
    ∧ ((secTrace queue ok k).currentIndex < queue.length →
        (secTrace queue ok (k + 1)).currentIndex
          = (secTrace queue ok k).currentIndex + 1)
    ∧ (secTrace queue ok k).currentIndex ≤ queue.length
    ∧ ((secTrace queue ok k).currentIndex = queue.length →
        secTrace queue ok (k + 1) = secTrace queue ok k)
    ∧ (List.range (queue.length + 1)).countP
        (fun j => decide (queue.length ≤ (secTrace queue ok j).currentIndex)) = 1 := by
  refine ⟨by simp [secTrace_closed], ?_, ?_, ?_, ?_⟩
  · intro h
    rw [secTrace_closed] at h ⊢
    rw [secTrace_closed]
    simp only at h ⊢
    omega
  · rw [secTrace_closed]
    simp only
    omega
  · intro h
    rw [secTrace_closed] at h ⊢
    rw [secTrace_closed]
    simp only at h ⊢
    have h1 : min (k + 1) queue.length = queue.length := by omega
    rw [h, h1]
  · rw [List.range_succ, List.countP_append]
    have h0 : (List.range queue.length).countP
        (fun j => decide (queue.length ≤ (secTrace queue ok j).currentIndex)) = 0 := by
      rw [List.countP_eq_zero]
      intro j hj
      rw [List.mem_range] at hj
      rw [secTrace_closed]
      simp only [decide_eq_true_eq]
      omega
    have h1 : List.countP
        (fun j => decide (queue.length ≤ (secTrace queue ok j).currentIndex))
        [queue.length] = 1 := by
      rw [List.countP_cons, List.countP_nil]
      rw [secTrace_closed]
      simp
    rw [h0, h1]

/-- Witness for C2: a two-item queue where the first item succeeds and
the second fails; after round 1 the index is 1 (below the length 2),
and after round 2 it has advanced to exactly 2. -/
theorem secondary_index_invariant_witness :
    (secTrace [⟨"u1", "p1", "A"⟩, ⟨"u2", "p2", "B"⟩] (fun i => i == 0) 1).currentIndex
        < ([⟨"u1", "p1", "A"⟩, ⟨"u2", "p2", "B"⟩] : List DownloadTask).length
    ∧ (secTrace [⟨"u1", "p1", "A"⟩, ⟨"u2", "p2", "B"⟩] (fun i => i == 0) 2).currentIndex
      = (secTrace [⟨"u1", "p1", "A"⟩, ⟨"u2", "p2", "B"⟩] (fun i => i == 0) 1).currentIndex + 1 :=
  ⟨by decide,
    (secondary_index_invariant [⟨"u1", "p1", "A"⟩, ⟨"u2", "p2", "B"⟩]
      (fun i => i == 0) 1).2.1 (by decide)⟩

/-! ## Helper lemmas about the final failure list -/

/-- The index-based failure list over a whole queue coincides with the
structural walk `failedSel`. -/
theorem failedByIndex_eq_failedSel :
    ∀ (queue : List DownloadTask) (ok : Nat → Bool),
      failedByIndex queue ok queue.length = failedSel queue ok := by
  intro queue
  induction queue with
  | nil => intro ok; rfl
  | cons t rest ih =>
    intro ok
    have hmapfilter :
        List.filter (fun i => !ok i) (List.map Nat.succ (List.range rest.length))
          = List.map Nat.succ
              (List.filter (fun i => !ok (i + 1)) (List.range rest.length)) := by
      rw [List.filter_map]; rfl
    have hmapmap :
        List.map (fun i => ((t :: rest).getD i defaultTask).label)
            (List.map Nat.succ
              (List.filter (fun i => !ok (i + 1)) (List.range rest.length)))
          = List.map (fun i => (rest.getD i defaultTask).label)
              (List.filter (fun i => !ok (i + 1)) (List.range rest.length)) := by
      rw [List.map_map]; rfl
    have hrest : List.map (fun i => (rest.getD i defaultTask).label)
          (List.filter (fun i => !ok (i + 1)) (List.range rest.length))
        = failedSel rest (fun i => ok (i + 1)) := ih (fun i => ok (i + 1))
    rw [failedByIndex, List.length_cons, List.range_succ_eq_map, List.filter_cons]
    cases hok : ok 0 with
    | true =>
      rw [if_neg (by simp [hok]), hmapfilter, hmapmap, hrest, failedSel,
        if_pos hok, List.nil_append]
    | false =>
      rw [if_pos (by simp [hok]), List.map_cons, hmapfilter, hmapmap, hrest,
        failedSel, if_neg (by simp [hok]), List.getD_cons_zero, List.singleton_append]

open List in
/-- The failure labels are an order-preserving selection from the
queue's labels. -/
theorem failedSel_sublist :
    ∀ (queue : List DownloadTask) (ok : Nat → Bool),
      failedSel queue ok <+ queue.map (fun t => t.label) := by
  intro queue
  induction queue with
  | nil => intro ok; simp [failedSel]
  | cons t rest ih =>
    intro ok
    rw [failedSel, List.map_cons]
    cases ok 0 with
    | true => exact (ih (fun i => ok (i + 1))).cons t.label
    | false => exact (ih (fun i => ok (i + 1))).cons₂ t.label

/-- The final failure list of a run, in structural form. -/
theorem finalFailedLabels_eq (queue : List DownloadTask) (ok : Nat → Bool) :
    finalFailedLabels queue ok = failedSel queue ok := by
  rw [finalFailedLabels, secTrace_closed]
  simp only [Nat.min_self]
  exact failedByIndex_eq_failedSel queue ok

open List in
/-- The labels of any built queue form a sublist of the fixed label
list `modLabels`. -/
theorem buildQueue_labels_sublist (version modsFolder : String)
    (uni hodge gtnh : Option (String × String)) :
    (buildQueue version modsFolder uni hodge gtnh).map (fun t => t.label)
      <+ modLabels := by
  rcases uni with _ | ⟨u1, f1⟩ <;> rcases hodge with _ | ⟨u2, f2⟩ <;>
    rcases gtnh with _ | ⟨u3, f3⟩ <;>
    simp only [buildQueue, modLabels, List.map_append, List.map_cons,
      List.map_nil, List.append_nil, List.nil_append, List.singleton_append] <;>
    decide

open List in
/-- Two sublists of a duplicate-free list that contain the same
elements are the same list. -/
theorem sublist_eq_of_toFinset_eq :
    ∀ (m : List String), m.Nodup → ∀ (l1 l2 : List String),
      l1 <+ m → l2 <+ m → l1.toFinset = l2.toFinset → l1 = l2 := by
  intro m
  induction m with
  | nil =>
    intro _ l1 l2 h1 h2 _
    rw [List.sublist_nil.mp h1, List.sublist_nil.mp h2]
  | cons a t ih =>
    intro hnd l1 l2 h1 h2 hset
    obtain ⟨ha, ht⟩ := List.nodup_cons.mp hnd
    cases h1 with
    | cons _ h1' =>
      cases h2 with
      | cons _ h2' => exact ih ht l1 l2 h1' h2' hset
      | cons₂ _ h2' =>
        exfalso
        have hal1 : a ∈ l1 := by
          have hmem : a ∈ l1.toFinset := by rw [hset]; simp
          simpa using hmem
        exact ha (h1'.subset hal1)
    | cons₂ _ h1' =>
      cases h2 with
      | cons _ h2' =>
        exfalso
        have hal2 : a ∈ l2 := by
          have hmem : a ∈ l2.toFinset := by rw [← hset]; simp
          simpa using hmem
        exact ha (h2'.subset hal2)
      | cons₂ _ h2' =>
        rename_i t1 t2
        have h1a : a ∉ t1 := fun hh => ha (h1'.subset hh)
        have h2a : a ∉ t2 := fun hh => ha (h2'.subset hh)
        have hts : t1.toFinset = t2.toFinset := by
          rw [List.toFinset_cons, List.toFinset_cons] at hset
          calc t1.toFinset
              = (insert a t1.toFinset).erase a :=
                (Finset.erase_insert (by simpa using h1a)).symm
            _ = (insert a t2.toFinset).erase a := by rw [hset]
            _ = t2.toFinset := Finset.erase_insert (by simpa using h2a)
        rw [ih ht t1 t2 h1' h2' hts]

/-! ## C9: the aggregate depends only on the failed-label set -/

open List in
/-- Claim C9: the aggregated outcome depends only on the set of failed
labels, not on the order in which failures were recorded: any two runs
of the secondary phase (over queues built by `download_jar_file`, with
any per-item outcomes) whose failed-label sets coincide produce the
same aggregate; moreover the aggregate of no failures is `fullSuccess`
and the aggregate of exactly `{"X"}` is `partialSuccess ["X"]`. -/
theorem aggregate_depends_only_on_failed_set
    (v1 m1 : String) (uni1 hodge1 gtnh1 : Option (String × String)) (ok1 : Nat → Bool)
    (v2 m2 : String) (uni2 hodge2 gtnh2 : Option (String × String)) (ok2 : Nat → Bool)
    (h : (finalFailedLabels (buildQueue v1 m1 uni1 hodge1 gtnh1) ok1).toFinset
       = (finalFailedLabels (buildQueue v2 m2 uni2 hodge2 gtnh2) ok2).toFinset) :
    on_all_mods_downloaded (finalFailedLabels (buildQueue v1 m1 uni1 hodge1 gtnh1) ok1)
      = on_all_mods_downloaded (finalFailedLabels (buildQueue v2 m2 uni2 hodge2 gtnh2) ok2)
    ∧ on_all_mods_downloaded [] = Outcome.fullSuccess
    ∧ on_all_mods_downloaded ["X"] = Outcome.partialSuccess ["X"] := by
  have s1 : finalFailedLabels (buildQueue v1 m1 uni1 hodge1 gtnh1) ok1 <+ modLabels := by
    rw [finalFailedLabels_eq]
    exact (failedSel_sublist _ ok1).trans
      (buildQueue_labels_sublist v1 m1 uni1 hodge1 gtnh1)
  have s2 : finalFailedLabels (buildQueue v2 m2 uni2 hodge2 gtnh2) ok2 <+ modLabels := by
    rw [finalFailedLabels_eq]
    exact (failedSel_sublist _ ok2).trans
      (buildQueue_labels_sublist v2 m2 uni2 hodge2 gtnh2)
  have hnd : modLabels.Nodup := by decide
  have heq := sublist_eq_of_toFinset_eq modLabels hnd _ _ s1 s2 h
  exact ⟨by rw [heq], rfl, rfl⟩

/-- Witness for C9: a two-item run failing only UniMixins and a
three-item run failing only UniMixins have equal failed-label sets, and
the aggregator reports the same partial success for both. -/
theorem aggregate_depends_only_on_failed_set_witness :
    (finalFailedLabels (buildQueue "1.0" "mods" (some ("u", "f")) none none)
        (fun i => i == 0)).toFinset
      = (finalFailedLabels (buildQueue "2.0" "m2" (some ("a", "b")) (some ("c", "d")) none)
        (fun i => i == 0 || i == 2)).toFinset
    ∧ on_all_mods_downloaded
        (finalFailedLabels (buildQueue "1.0" "mods" (some ("u", "f")) none none)
          (fun i => i == 0))
      = on_all_mods_downloaded
        (finalFailedLabels (buildQueue "2.0" "m2" (some ("a", "b")) (some ("c", "d")) none)
          (fun i => i == 0 || i == 2)) :=
  ⟨by decide,
    (aggregate_depends_only_on_failed_set "1.0" "mods" (some ("u", "f")) none none
      (fun i => i == 0) "2.0" "m2" (some ("a", "b")) (some ("c", "d")) none
      (fun i => i == 0 || i == 2) (by decide)).1⟩

/-! ## C4: empty set of failures means full success, otherwise partial -/

/-- Claim C4: the outcome aggregator returns `fullSuccess` exactly when
the failed-label list is empty, and `partialSuccess` carrying the
failed labels otherwise; a non-empty failed list is never reported as
an overall `failure` (the fatal outcome reserved for the primary
phase): the partial-success dialog states that the main lwjgl3ify
installation succeeded and `installation_complete()` still runs. -/
theorem aggregator_outcome (failed : List String) :
    (on_all_mods_downloaded failed = Outcome.fullSuccess ↔ failed = [])
    ∧ (failed ≠ [] → on_all_mods_downloaded failed = Outcome.partialSuccess failed)
    ∧ ∀ msg, on_all_mods_downloaded failed ≠ Outcome.failure msg := by
  cases failed <;> simp [on_all_mods_downloaded]

/-- Witness for C4, the spec's Scenario C: a three-item queue
(lwjgl3ify, UniMixins, Hodgepodge) in which only item 2 fails yields
`partialSuccess ["UniMixins"]`. -/
theorem aggregator_outcome_witness :
    on_all_mods_downloaded
        (finalFailedLabels
          (buildQueue "1.0" "mods" (some ("u", "f")) (some ("h", "g")) none)
          (fun i => i != 1))
      = Outcome.partialSuccess ["UniMixins"] := by
  have h1 : finalFailedLabels
      (buildQueue "1.0" "mods" (some ("u", "f")) (some ("h", "g")) none)
      (fun i => i != 1) = ["UniMixins"] := by decide
  have h2 := (aggregator_outcome
      (finalFailedLabels
        (buildQueue "1.0" "mods" (some ("u", "f")) (some ("h", "g")) none)
        (fun i => i != 1))).2.1 (by decide)
  rw [h1] at h2
  rw [h1]
  exact h2

/-! ## C6: the mods-folder selector -/

/-- Claim C6: `find_mods_folder` tries `minecraft/mods` then
`.minecraft/mods` in that fixed order, returning the existing `mods`
child, or creating and returning it when only the parent exists, and
skipping a candidate whose parent does not exist; if neither candidate
yields a path it returns the `mods` child of the first immediate
subdirectory that already contains one, and `none` when no subdirectory
does. -/
theorem find_mods_folder_behaviour (fs : InstanceFS) :
    (fs.minecraftModsExists = true →
        find_mods_folder fs = some (["minecraft", "mods"], false))
    ∧ (fs.minecraftModsExists = false → fs.minecraftExists = true →
        find_mods_folder fs = some (["minecraft", "mods"], true))
    ∧ (fs.minecraftModsExists = false → fs.minecraftExists = false →
        fs.dotMinecraftModsExists = true →
        find_mods_folder fs = some ([".minecraft", "mods"], false))
    ∧ (fs.minecraftModsExists = false → fs.minecraftExists = false →
        fs.dotMinecraftModsExists = false → fs.dotMinecraftExists = true →
        find_mods_folder fs = some ([".minecraft", "mods"], true))
    ∧ (fs.minecraftModsExists = false → fs.minecraftExists = false →
        fs.dotMinecraftModsExists = false → fs.dotMinecraftExists = false →
        (∀ l1 d l2, fs.subdirs = l1 ++ d :: l2 → (∀ e ∈ l1, e.2 = false) →
            d.2 = true → find_mods_folder fs = some ([d.1, "mods"], false))
        ∧ ((∀ d ∈ fs.subdirs, d.2 = false) → find_mods_folder fs = none)) := by
  refine ⟨?_, ?_, ?_, ?_, ?_⟩
  · intro h1; simp [find_mods_folder, h1]
  · intro h1 h2; simp [find_mods_folder, h1, h2]
  · intro h1 h2 h3; simp [find_mods_folder, h1, h2, h3]
  · intro h1 h2 h3 h4; simp [find_mods_folder, h1, h2, h3, h4]
  · intro h1 h2 h3 h4
    constructor
    · intro l1 d l2 hsplit hall hd
      have hfind : fs.subdirs.find? (fun e => e.2) = some d := by
        rw [hsplit]
        exact find?_eq_some_of_split (fun e => e.2) l1 d l2 hall hd
      simp [find_mods_folder, h1, h2, h3, h4, hfind]
    · intro hall
      have hfind : fs.subdirs.find? (fun e => e.2) = none :=
        List.find?_eq_none.mpr (fun e he => by simp [hall e he])
      simp [find_mods_folder, h1, h2, h3, h4, hfind]

/-- Witness for C6, the spec's Scenario B: an instance root containing
a `minecraft` directory with no `mods` child; the selector creates and
returns `minecraft/mods`. -/
theorem find_mods_folder_behaviour_witness :
    find_mods_folder ⟨true, false, false, false, []⟩
      = some (["minecraft", "mods"], true) :=
  (find_mods_folder_behaviour ⟨true, false, false, false, []⟩).2.1 rfl rfl

/-! ## C7: the overall secondary progress value -/

/-- Claim C7: for a queue of `N` items, item index `i < N` (0-indexed)
and per-item fraction `f ∈ [0, 1]`, the overall progress value computed
by `on_mod_download_progress` equals `(i + f) / N * 100` and lies
within `[0, 100]`. -/
theorem overall_progress_formula (currentIndex totalMods : Nat) (f : ℚ)
    (hi : currentIndex < totalMods) (hf0 : 0 ≤ f) (hf1 : f ≤ 1) :
    on_mod_download_progress currentIndex totalMods f
      = ((currentIndex : ℚ) + f) / (totalMods : ℚ) * 100
    ∧ 0 ≤ on_mod_download_progress currentIndex totalMods f
    ∧ on_mod_download_progress currentIndex totalMods f ≤ 100 := by
  have hN : (0 : ℚ) < (totalMods : ℚ) := by
    exact_mod_cast Nat.lt_of_le_of_lt (Nat.zero_le _) hi
  have hnum : 0 ≤ (currentIndex : ℚ) + f := add_nonneg (Nat.cast_nonneg _) hf0
  have hle : (currentIndex : ℚ) + f ≤ (totalMods : ℚ) := by
    have hcast : (currentIndex : ℚ) + 1 ≤ (totalMods : ℚ) := by
      exact_mod_cast Nat.succ_le_of_lt hi
    linarith
  refine ⟨rfl, ?_, ?_⟩
  · exact mul_nonneg (div_nonneg hnum hN.le) (by norm_num)
  · rw [on_mod_download_progress, div_mul_eq_mul_div, div_le_iff₀ hN]
    have h100 : ((currentIndex : ℚ) + f) * 100 ≤ (totalMods : ℚ) * 100 :=
      mul_le_mul_of_nonneg_right hle (by norm_num)
    linarith

/-- Witness for C7 at item 1 of 3 with per-item fraction 1 (item just
finished): the computed value is within bounds. -/
theorem overall_progress_formula_witness :
    0 ≤ on_mod_download_progress 1 3 1
    ∧ on_mod_download_progress 1 3 1 ≤ 100 :=
  ⟨(overall_progress_formula 1 3 1 (by decide) zero_le_one (le_refl 1)).2.1,
    (overall_progress_formula 1 3 1 (by decide) zero_le_one (le_refl 1)).2.2⟩

/-! ## C8: primary-download progress reports -/

/-- With an unknown (zero) content length the streaming loop emits no
progress at all. -/
theorem downloadThreadRunAux_total_zero :
    ∀ (chunks : List Nat) (acc : Nat), downloadThreadRunAux 0 acc chunks = [] := by
  intro chunks
  induction chunks with
  | nil => intro acc; rfl
  | cons c rest ih =>
    intro acc
    by_cases hc : c ≠ 0 <;> simp [downloadThreadRunAux, hc, ih]

/-- With a positive content length the emitted values are exactly the
truncated percentages of the successive cumulative byte counts. -/
theorem downloadThreadRunAux_map (total : Nat) (ht : 0 < total) :
    ∀ (chunks : List Nat) (acc : Nat),
      downloadThreadRunAux total acc chunks
        = (cumBytes acc chunks).map (fun d => d * 100 / total) := by
  intro chunks
  induction chunks with
  | nil => intro acc; rfl
  | cons c rest ih =>
    intro acc
    by_cases hc : c ≠ 0 <;> simp [downloadThreadRunAux, cumBytes, hc, ht, ih]

/-- Every cumulative byte count is bounded by the starting value plus
the total length of the chunks. -/
theorem cumBytes_le :
    ∀ (chunks : List Nat) (acc d : Nat),
      d ∈ cumBytes acc chunks → d ≤ acc + chunks.sum := by
  intro chunks
  induction chunks with
  | nil => intro acc d h; simp [cumBytes] at h
  | cons c rest ih =>
    intro acc d h
    by_cases hc : c ≠ 0
    · rw [cumBytes, if_pos hc] at h
      rcases List.mem_cons.mp h with rfl | h'
      · simp only [List.sum_cons]
        omega
      · have hle := ih (acc + c) d h'
        simp only [List.sum_cons]
        omega
    · rw [cumBytes, if_neg hc] at h
      have hle := ih acc d h
      simp only [List.sum_cons]
      omega

/-- Counterexample to claim C8 as stated: when the server's
`content-length` header (1) undercounts the bytes actually received
(one chunk of 2 bytes), `DownloadThread.run` emits
`int(2 / 1 * 100) = 200`, a reported value outside 0–100. -/
theorem download_progress_counterexample :
    ∃ v ∈ downloadThreadRun 1 [2], 100 < v :=
  ⟨200, by decide, by decide⟩

/-- Claim C8 as amended: a progress percentage is reported only when
the content length is positive (with an unknown length nothing is
reported until completion); every reported value is the integer part of
cumulative bytes received divided by the content length times 100; and
provided the bytes received never exceed the announced content length,
every reported value lies within 0–100. -/
theorem download_progress_reports (total : Nat) (chunks : List Nat) :
    (total = 0 → downloadThreadRun total chunks = [])
    ∧ (0 < total → downloadThreadRun total chunks
        = (cumBytes 0 chunks).map (fun d => d * 100 / total))
    ∧ (chunks.sum ≤ total → ∀ v ∈ downloadThreadRun total chunks, v ≤ 100) := by
  refine ⟨?_, ?_, ?_⟩
  · intro h
    rw [h]
    exact downloadThreadRunAux_total_zero chunks 0
  · intro ht
    exact downloadThreadRunAux_map total ht chunks 0
  · intro hsum v hv
    by_cases ht : 0 < total
    · have hv' : v ∈ (cumBytes 0 chunks).map (fun d => d * 100 / total) := by
        rw [← downloadThreadRunAux_map total ht chunks 0]
        exact hv
      obtain ⟨d, hd, rfl⟩ := List.mem_map.mp hv'
      have hdle : d ≤ total := by
        have := cumBytes_le chunks 0 d hd
        omega
      calc d * 100 / total ≤ total * 100 / total :=
            Nat.div_le_div_right (Nat.mul_le_mul_right 100 hdle)
        _ = 100 := Nat.mul_div_cancel_left 100 ht
    · have ht0 : total = 0 := Nat.eq_zero_of_not_pos ht
      have hempty : downloadThreadRun total chunks = [] := by
        rw [ht0]
        exact downloadThreadRunAux_total_zero chunks 0
      rw [hempty] at hv
      simp at hv

/-- Witness for the amended C8: content length 100 with chunks of 30
and 70 bytes reports `[30, 100]`, all within 0–100. -/
theorem download_progress_reports_witness :
    downloadThreadRun 100 [30, 70] = [30, 100]
    ∧ ∀ v ∈ downloadThreadRun 100 [30, 70], v ≤ 100 :=
  ⟨by decide, (download_progress_reports 100 [30, 70]).2.2 (by decide)⟩
